import Mathlib

/-!
Verification of the Trello action-counting pipeline (action_counts.py).

The definitions below are a shallow embedding of the source module:

* raw Trello action documents and the record normalizer
  (make_action_date, make_action_action, make_action_card,
  make_action_list, make_action);
* the match-rule builders (MATCH_ACTION_TYPE, MATCH_IN_LIST,
  MATCH_NOT_LIST, MATCH_ACTION_TYPE_IN_LIST, MATCH_ACTION_TYPE_NOT_LIST)
  and the standard rule sets (build_action_event_rules, build_pass_rules);
* the classification / filtering pipeline of action_event_iter,
  including the exact consumption behaviour of the shared
  rule-partial generator;
* the temporal aggregation (running_count_iter) and the tabular
  pivot (pivot_for_csv, good_events).

Python dictionaries keyed by Event are embedded as insertion-ordered
association lists (Counter semantics); Python exceptions are embedded
as Option, with none standing for a raised exception.
-/

namespace action_counts

/-- The Event enumeration of the source: Enum with members in the
definition order ignore, create, remove, finish. -/
inductive Event where
  | ignore
  | create
  | remove
  | finish
deriving DecidableEq, Repr

/-- Iteration order of the Python enumeration, as produced by
iterating over Event (and by list(Event)). -/
def Event.all : List Event := [Event.ignore, Event.create, Event.remove, Event.finish]

/-- A calendar date, the result of datetime.date() truncation. -/
structure CalDate where
  year : Nat
  month : Nat
  day : Nat
deriving DecidableEq, Repr

/-- The nested card sub-document: an id is mandatory, a name optional
(deleted cards carry no name). -/
structure CardData where
  id : String
  name : Option String
deriving DecidableEq, Repr

/-- A list reference sub-document; the name attribute is mandatory in
the source schema. -/
structure ListData where
  name : String
deriving DecidableEq, Repr

/-- The data sub-document of a raw Trello action: a mandatory card,
and optionally a direct list reference or a listAfter (destination
list of a move) reference. -/
structure ActionData where
  card : CardData
  list : Option ListData
  listAfter : Option ListData
deriving DecidableEq, Repr

/-- A raw Trello action document, restricted to the fields the
normalizer reads: the date string, the type string, and the nested
data sub-document. -/
structure TrelloDoc where
  date : String
  type : String
  data : ActionData
deriving DecidableEq, Repr

/-- The Action namedtuple of the source: date, action, card, list and
the raw document. -/
structure Action where
  date : CalDate
  action : String
  card : String
  list : String
  raw : TrelloDoc
deriving DecidableEq, Repr

/-- The helper first = next: plucks the first item of an iterator.
next on an exhausted iterator raises StopIteration, embedded as none. -/
def first {T_ : Type} (iterable : List T_) : Option T_ := iterable.head?

/-- parse_action: the query text before the first colon
(type_text.partition(chr 58)[0]); the whole string when there is no
colon. -/
def parse_action (type_text : String) : String :=
  String.mk (type_text.data.takeWhile (fun c => !(c == ':')))

/-- MATCH_ACTION_TYPE: matches when the text of the action type equals
the Action.action field. -/
def MATCH_ACTION_TYPE (type_text : String) : Action → Bool :=
  fun action => action.action == type_text

/-- MATCH_IN_LIST: matches when the Action.list field is in the target
lists. -/
def MATCH_IN_LIST (list_names : List String) : Action → Bool :=
  fun action => list_names.contains action.list

/-- MATCH_NOT_LIST: matches when the Action.list field is not in the
target lists. -/
def MATCH_NOT_LIST (list_names : List String) : Action → Bool :=
  fun action => !(list_names.contains action.list)

/-- MATCH_ACTION_TYPE_IN_LIST: the Action.action field equals the
parsed (unqualified) action type and the Action.list field is in the
target lists. -/
def MATCH_ACTION_TYPE_IN_LIST (type_text : String) (list_names : List String) : Action → Bool :=
  fun action => action.action == parse_action type_text && list_names.contains action.list

/-- MATCH_ACTION_TYPE_NOT_LIST: the Action.action field equals the
parsed (unqualified) action type and the Action.list field is not in
the target lists. -/
def MATCH_ACTION_TYPE_NOT_LIST (type_text : String) (list_names : List String) : Action → Bool :=
  fun action => action.action == parse_action type_text && !(list_names.contains action.list)

/-- build_action_event_rules: the standard rule list, with the
finished list names injected. The source stores (rule, args, event)
triples and applies rule(*args) at classification time; since the
builders are pure, the configuration arguments are bound here
directly, keeping the predicate and the target event of each triple
in source order. -/
def build_action_event_rules (finished_lists : List String) : List ((Action → Bool) × Event) :=
  [ (MATCH_ACTION_TYPE "copyCard", Event.create),
    (MATCH_ACTION_TYPE "createCard", Event.create),
    (MATCH_ACTION_TYPE "moveCardToBoard", Event.create),
    (MATCH_ACTION_TYPE "convertToCardFromCheckItem", Event.create),
    (MATCH_ACTION_TYPE "deleteCard", Event.remove),
    (MATCH_ACTION_TYPE "moveCardFromBoard", Event.remove),
    (MATCH_ACTION_TYPE_IN_LIST "updateCard:closed" finished_lists, Event.finish),
    (MATCH_ACTION_TYPE_IN_LIST "updateCard:idList" finished_lists, Event.finish),
    (MATCH_ACTION_TYPE_NOT_LIST "updateCard:idList" finished_lists, Event.ignore) ]

/-- build_pass_rules: the single pass rule, the reject lists bound
into MATCH_NOT_LIST (the source stores the (rule, args) pair and
applies rule(*args) inside action_event_iter). -/
def build_pass_rules (reject_lists : List String) : List (Action → Bool) :=
  [ MATCH_NOT_LIST reject_lists ]

/-- The classify step of action_event_iter: build the
(action.date, event, action) triple for every rule whose predicate is
true, drop the falsy entries with filter(None, ...) (a non-empty
tuple is always truthy, so exactly the None entries are dropped), and
take the first with first = next. An empty match sequence makes next
raise StopIteration, embedded as none. -/
def classify (classifier_rules : List ((Action → Bool) × Event)) (action : Action) :
    Option (CalDate × Event × Action) :=
  first (classifier_rules.filterMap
    (fun rule => if rule.1 action then some (action.date, rule.2, action) else none))

/-- One call of the pass_filter lambda of action_event_iter. The
lambda evaluates all(rule(action) for rule in rule_partials) where
rule_partials is a generator shared across calls: the call consumes
rules from the generator until one returns False (or the generator
is exhausted), and the unconsumed tail remains for the next call.
Returns the value of the call together with the remaining rules of
the generator. -/
def pass_filter_call (action : Action) :
    List (Action → Bool) → Bool × List (Action → Bool)
  | [] => (true, [])
  | rule :: rest =>
      if rule action then pass_filter_call action rest else (false, rest)

/-- filter(pass_filter, action_iter) of action_event_iter, with the
rule-partial generator state threaded through the successive calls of
pass_filter. -/
def filter_with_shared_rules :
    List (Action → Bool) → List Action → List Action
  | _, [] => []
  | remaining, action :: rest =>
      if (pass_filter_call action remaining).1 then
        action :: filter_with_shared_rules (pass_filter_call action remaining).2 rest
      else filter_with_shared_rules (pass_filter_call action remaining).2 rest

/-- action_event_iter: map(classify, filter(pass_filter, action_iter)).
A none element stands for the StopIteration raised by classify on a
record matched by no rule. -/
def action_event_iter (pass_rules : List (Action → Bool))
    (classifier_rules : List ((Action → Bool) × Event))
    (actions : List Action) : List (Option (CalDate × Event × Action)) :=
  (filter_with_shared_rules pass_rules actions).map (classify classifier_rules)

/-- A Counter keyed by Event, embedded as an insertion-ordered
association list (existing keys keep their slot, new keys append). -/
abbrev EventCounter := List (Event × Nat)

/-- counter.get(event, 0) resp. counter[event]: the stored value, 0
for an absent key. -/
def cGet (counter : EventCounter) (event : Event) : Nat :=
  match counter with
  | [] => 0
  | (key, value) :: rest => if key = event then value else cGet rest event

/-- counter[event] = value: update in place when the key exists,
append otherwise. -/
def cSet (counter : EventCounter) (event : Event) (value : Nat) : EventCounter :=
  match counter with
  | [] => [(event, value)]
  | (key, old) :: rest =>
      if key = event then (key, value) :: rest else (key, old) :: cSet rest event value

/-- by_date_counter[d], a dictionary lookup over the (distinct) date
keys; the per-date value is read with .get(event_type, 0) in the
source, so it is embedded as a total function on Event. -/
def bdGet {α : Type} [DecidableEq α] (by_date : List (α × (Event → Nat))) (d : α) :
    Event → Nat :=
  match by_date with
  | [] => fun _ => 0
  | p :: rest => if p.1 = d then p.2 else bdGet rest d

/-- The inner loop of running_count_iter: for event_type in Event:
running[event_type] += by_date_counter[d].get(event_type, 0). -/
def runningStep (day_counts : Event → Nat) (running : EventCounter) : EventCounter :=
  Event.all.foldl
    (fun r event_type => cSet r event_type (cGet r event_type + day_counts event_type))
    running

/-- The generator body of running_count_iter over an already sorted
date list: update the shared running counter and yield the date with
a copy of the counter (the copy is what makes each emitted row an
independent snapshot; in this pure embedding the emitted value is the
current counter value). -/
def running_count_go {α : Type} [DecidableEq α] (by_date : List (α × (Event → Nat))) :
    EventCounter → List α → List (α × EventCounter)
  | _, [] => []
  | running, d :: ds =>
      (d, runningStep (bdGet by_date d) running) ::
        running_count_go by_date (runningStep (bdGet by_date d) running) ds

/-- running_count_iter: iterate over sorted(by_date_counter) with an
initially empty Counter, yielding one (date, running copy) row per
date. -/
def running_count_iter {α : Type} [LinearOrder α] (by_date : List (α × (Event → Nat))) :
    List (α × EventCounter) :=
  running_count_go by_date [] (List.insertionSort (· ≤ ·) (by_date.map Prod.fst))

/-- pivot_for_csv: one flat row [date, count, count, ...] per input
row, the counts read with counts.get(event_type, 0) in the order of
good_events. The heterogeneous flat list is embedded as the pair of
the date and the count list. -/
def pivot_for_csv {α : Type} (good_events : List Event)
    (count_iter : List (α × EventCounter)) : List (α × List Nat) :=
  count_iter.map
    (fun row => (row.1, good_events.map (fun event_type => cGet row.2 event_type)))

/-- The reported categories of the main script: list(Event) with
Event.ignore removed. -/
def good_events : List Event := Event.all.erase Event.ignore

/-- The strptime format string used for the raw date field. -/
def UTC_FORMAT : String := "%Y-%m-%dT%H:%M:%S.%fZ"

/-- Numeric value of a decimal digit character. -/
def digitVal (c : Char) : Nat := c.toNat - 48

/-- Value of a two-digit field. -/
def d2v (c1 c2 : Char) : Nat := 10 * digitVal c1 + digitVal c2

/-- Value of a digit string, most significant first. -/
def digitsVal (ds : List Char) : Nat :=
  ds.foldl (fun acc c => 10 * acc + digitVal c) 0

/-- The %Y directive: exactly four digits. -/
def parseYear : List Char → Option (Nat × List Char)
  | c1 :: c2 :: c3 :: c4 :: rest =>
      if c1.isDigit && c2.isDigit && c3.isDigit && c4.isDigit then
        some (10 * d2v c1 c2 * 10 + d2v c3 c4, rest)
      else none
  | _ => none

/-- A literal character of the format string. strptime compiles the
format with IGNORECASE, so the comparison is case-insensitive. -/
def parseLitCI (lit : Char) : List Char → Option (List Char)
  | c :: rest => if c.toLower = lit.toLower then some rest else none
  | [] => none

/-- A numeric directive that the strptime regex matches as either a
two-digit or a one-digit field (alternation order: two digits first).
The directive is always followed by a non-digit literal of the
format, so committing to the two-digit alternative whenever its value
test passes is equivalent to the backtracking regex. -/
def parse2or1 (two one : Nat → Bool) : List Char → Option (Nat × List Char)
  | c1 :: c2 :: rest =>
      if c1.isDigit && c2.isDigit && two (d2v c1 c2) then some (d2v c1 c2, rest)
      else if c1.isDigit && one (digitVal c1) then some (digitVal c1, c2 :: rest)
      else none
  | [c1] => if c1.isDigit && one (digitVal c1) then some (digitVal c1, []) else none
  | [] => none

/-- Greedy run of at most n digits. -/
def takeDigitsUpTo : Nat → List Char → List Char × List Char
  | 0, cs => ([], cs)
  | _ + 1, [] => ([], [])
  | n + 1, c :: cs =>
      if c.isDigit then
        ((c :: (takeDigitsUpTo n cs).1), (takeDigitsUpTo n cs).2)
      else ([], c :: cs)

/-- The %f directive: one to six digits, matched greedily (the
following format character is the non-digit Z, so greed is exact). -/
def parseFrac (cs : List Char) : Option (Nat × List Char) :=
  if ((takeDigitsUpTo 6 cs).1).length = 0 then none
  else some (digitsVal (takeDigitsUpTo 6 cs).1, (takeDigitsUpTo 6 cs).2)

/-- Gregorian leap-year rule used by datetime. -/
def isLeapYear (y : Nat) : Bool := (y % 4 == 0 && y % 100 != 0) || y % 400 == 0

/-- Days in a month, as validated by the datetime constructor. -/
def daysInMonth (y m : Nat) : Nat :=
  if m = 2 then (if isLeapYear y then 29 else 28)
  else if m = 4 || m = 6 || m = 9 || m = 11 then 30
  else 31

/-- The range checks of the datetime constructor applied to the
matched fields (MINYEAR <= year <= MAXYEAR is 1..9999; the %S regex
also admits the leap seconds 60 and 61, which the constructor
rejects). -/
def datetime_ok (y mo dy hh mi ss : Nat) : Bool :=
  1 ≤ y && y ≤ 9999 && 1 ≤ mo && mo ≤ 12 && 1 ≤ dy && dy ≤ daysInMonth y mo &&
    hh ≤ 23 && mi ≤ 59 && ss ≤ 59

/-- Value test for the two-digit alternative of %m (regex
1[0-2] or 0[1-9]). -/
def monthTwo (v : Nat) : Bool := 1 ≤ v && v ≤ 12

/-- Value test for the one-digit alternative of %m (regex [1-9]). -/
def monthOne (v : Nat) : Bool := 1 ≤ v && v ≤ 9

/-- Value test for the two-digit alternative of %d (regex
3[01], [12] digit or 0[1-9]). -/
def dayTwo (v : Nat) : Bool := 1 ≤ v && v ≤ 31

/-- Value test for the two-digit alternative of %H (regex 2[0-3] or
[0-1] digit). -/
def hourTwo (v : Nat) : Bool := v ≤ 23

/-- Value test for the two-digit alternative of %M (regex
[0-5] digit). -/
def minuteTwo (v : Nat) : Bool := v ≤ 59

/-- Value test for the two-digit alternative of %S (regex 6[0-1] or
[0-5] digit). -/
def secondTwo (v : Nat) : Bool := v ≤ 61

/-- Any single digit, the one-digit alternative of %H, %M and %S. -/
def anyDigit (_ : Nat) : Bool := true

/-- datetime.strptime(s, UTC_FORMAT) followed by .date(): the
strptime regex for the format, the full-match check (unconverted
data remains), and the constructor range checks, returning the
calendar date together with hour, minute, second and fraction. A
raised ValueError is embedded as none. -/
def parse_utc_timestamp (cs : List Char) : Option (CalDate × Nat × Nat × Nat × Nat) :=
  match parseYear cs with
  | none => none
  | some (y, r1) =>
    match parseLitCI '-' r1 with
    | none => none
    | some r2 =>
      match parse2or1 monthTwo monthOne r2 with
      | none => none
      | some (mo, r3) =>
        match parseLitCI '-' r3 with
        | none => none
        | some r4 =>
          match parse2or1 dayTwo monthOne r4 with
          | none => none
          | some (dy, r5) =>
            match parseLitCI 'T' r5 with
            | none => none
            | some r6 =>
              match parse2or1 hourTwo anyDigit r6 with
              | none => none
              | some (hh, r7) =>
                match parseLitCI ':' r7 with
                | none => none
                | some r8 =>
                  match parse2or1 minuteTwo anyDigit r8 with
                  | none => none
                  | some (mi, r9) =>
                    match parseLitCI ':' r9 with
                    | none => none
                    | some r10 =>
                      match parse2or1 secondTwo anyDigit r10 with
                      | none => none
                      | some (ss, r11) =>
                        match parseLitCI '.' r11 with
                        | none => none
                        | some r12 =>
                          match parseFrac r12 with
                          | none => none
                          | some (f, r13) =>
                            match parseLitCI 'Z' r13 with
                            | none => none
                            | some [] =>
                                if datetime_ok y mo dy hh mi ss then
                                  some (⟨y, mo, dy⟩, hh, mi, ss, f)
                                else none
                            | some _ => none

/-- make_action_date: parse the date string of the document with
UTC_FORMAT, attach UTC (a no-op for the calendar date) and truncate
to the date. -/
def make_action_date (document : TrelloDoc) : Option CalDate :=
  (parse_utc_timestamp document.date.data).map (fun t => t.1)

/-- make_action_action: a verbatim copy of the type field. -/
def make_action_action (document : TrelloDoc) : String := document.type

/-- make_action_card: the card name when the nested card data has
one, else the card id. -/
def make_action_card (document : TrelloDoc) : String :=
  match document.data.card.name with
  | some name => name
  | none => document.data.card.id

/-- make_action_list: the name of the direct list reference when
present, else the name of the listAfter reference when present, else
the empty string. -/
def make_action_list (document : TrelloDoc) : String :=
  match document.data.list with
  | some l => l.name
  | none =>
      match document.data.listAfter with
      | some l => l.name
      | none => ""

/-- make_action: apply every field transformation of
ACTION_FIELD_MAP to the raw document and build the Action; a
ValueError raised by the date transformation propagates (none). -/
def make_action (raw_action : TrelloDoc) : Option Action :=
  match make_action_date raw_action with
  | none => none
  | some dt =>
      some ⟨dt, make_action_action raw_action, make_action_card raw_action,
        make_action_list raw_action, raw_action⟩

/-- Modelled from the spec: the fixed timestamp format
YYYY-MM-DDTHH:MM:SS.ffffffZ of section 4.1, read literally as four
digits, dash, two digits, dash, two digits, the letter T, three
colon-separated two-digit fields, a dot, six digits and the letter Z,
denoting a valid calendar date and time of day. This definition
follows the words of the spec (it is the fixed-format reading that
claim C6 quantifies over), not the source, and is compared against
parse_utc_timestamp, which embeds the strptime call of the source. -/
def specTimestampParse : List Char → Option (CalDate × Nat × Nat × Nat × Nat)
  | [y1, y2, y3, y4, '-', m1, m2, '-', d1, d2, 'T', h1, h2, ':', n1, n2, ':',
     s1, s2, '.', f1, f2, f3, f4, f5, f6, 'Z'] =>
      if y1.isDigit && y2.isDigit && y3.isDigit && y4.isDigit &&
          m1.isDigit && m2.isDigit && d1.isDigit && d2.isDigit &&
          h1.isDigit && h2.isDigit && n1.isDigit && n2.isDigit &&
          s1.isDigit && s2.isDigit && f1.isDigit && f2.isDigit && f3.isDigit &&
          f4.isDigit && f5.isDigit && f6.isDigit &&
          datetime_ok (10 * d2v y1 y2 * 10 + d2v y3 y4) (d2v m1 m2) (d2v d1 d2)
            (d2v h1 h2) (d2v n1 n2) (d2v s1 s2) then
        some (⟨10 * d2v y1 y2 * 10 + d2v y3 y4, d2v m1 m2, d2v d1 d2⟩,
          d2v h1 h2, d2v n1 n2, d2v s1 s2, digitsVal [f1, f2, f3, f4, f5, f6])
      else none
  | _ => none

/-! Concrete documents and actions used as witnesses and
counterexamples. -/

/-- An empty raw document, used where a record needs a raw payload. -/
def doc0 : TrelloDoc := ⟨"", "", ⟨⟨"", none⟩, none, none⟩⟩

/-- A record on the excluded list X. -/
def aX1 : Action := ⟨⟨2024, 1, 1⟩, "createCard", "c1", "X", doc0⟩

/-- A second record on the excluded list X. -/
def aX2 : Action := ⟨⟨2024, 1, 2⟩, "createCard", "c2", "X", doc0⟩

/-- A record whose action kind matches no classification rule. -/
def aComment : Action := ⟨⟨2024, 1, 1⟩, "commentCard", "c", "Doing", doc0⟩

/-- An updateCard record on the finished list Done. -/
def aU : Action := ⟨⟨2024, 1, 1⟩, "updateCard", "c", "Done", doc0⟩

/-- A createCard record on an ordinary list. -/
def aC : Action := ⟨⟨2024, 1, 1⟩, "createCard", "c", "Backlog", doc0⟩

/-! Helper lemmas shared by the claim theorems. -/

/-- takeWhile over a colon-free character list keeps the whole
list. -/
lemma takeWhile_ne_colon (l : List Char) (h : ':' ∉ l) :
    l.takeWhile (fun c => !(c == ':')) = l := by
  induction l with
  | nil => rfl
  | cons c t ih =>
      simp only [List.mem_cons, not_or] at h
      have hcp : ¬(c = ':') := fun hh => h.1 hh.symm
      have hc : (!(c == ':')) = true := by simp [hcp]
      simp only [List.takeWhile_cons, hc, if_true]
      rw [ih h.2]

/-- takeWhile up to the first colon of an appended string recovers
the colon-free part. -/
lemma takeWhile_append_colon (l r : List Char) (h : ':' ∉ l) :
    (l ++ ':' :: r).takeWhile (fun c => !(c == ':')) = l := by
  induction l with
  | nil => simp [List.takeWhile_cons]
  | cons c t ih =>
      simp only [List.mem_cons, not_or] at h
      have hcp : ¬(c = ':') := fun hh => h.1 hh.symm
      have hc : (!(c == ':')) = true := by simp [hcp]
      simp only [List.cons_append, List.takeWhile_cons, hc, if_true]
      rw [ih h.2]

/-- The character data of an appended string. -/
lemma string_data_append (s t : String) : (s ++ t).data = s.data ++ t.data := by
  cases s
  cases t
  rfl

/-- A record matched by no rule makes the classify step take the
first element of an empty sequence: the embedded StopIteration. -/
lemma classify_eq_none_of_no_match (rules : List ((Action → Bool) × Event)) (a : Action)
    (h : ∀ rule ∈ rules, rule.1 a = false) : classify rules a = none := by
  induction rules with
  | nil => rfl
  | cons r rest ih =>
      have hr : r.1 a = false := h r (List.mem_cons_self r rest)
      have htail : ∀ rule ∈ rest, rule.1 a = false :=
        fun rule hm => h rule (List.mem_cons_of_mem r hm)
      simp only [classify, first, List.filterMap_cons, hr, Bool.false_eq_true, if_false]
      exact ih htail

/-- A record matched by some rule is classified (the matching
sequence is non-empty, so first returns a value). -/
lemma classify_isSome_of_match (rules : List ((Action → Bool) × Event)) (a : Action)
    (h : ∃ rule ∈ rules, rule.1 a = true) : (classify rules a).isSome = true := by
  induction rules with
  | nil =>
      obtain ⟨rule, hm, _⟩ := h
      exact absurd hm (List.not_mem_nil rule)
  | cons r rest ih =>
      by_cases hr : r.1 a = true
      · simp [classify, first, List.filterMap_cons, hr]
      · obtain ⟨rule, hm, hrule⟩ := h
        rcases List.mem_cons.mp hm with heq | hm2
        · exact absurd (heq ▸ hrule) hr
        · have hr2 : r.1 a = false := by
            cases hv : r.1 a
            · rfl
            · exact absurd hv hr
          simp only [classify, first, List.filterMap_cons, hr2, Bool.false_eq_true, if_false]
          exact ih ⟨rule, hm2, hrule⟩

/-- Classification of an updateCard record under the standard rule
set: the updateCard:closed rule fires when the list is a finished
list, the trailing updateCard:idList exclusion rule fires otherwise. -/
lemma classify_updateCard_aux (finished_lists : List String) (a : Action)
    (ha : a.action = "updateCard") :
    classify (build_action_event_rules finished_lists) a
      = some (a.date,
          if finished_lists.contains a.list then Event.finish else Event.ignore, a) := by
  have e1 : ("updateCard" == "copyCard") = false := by decide
  have e2 : ("updateCard" == "createCard") = false := by decide
  have e3 : ("updateCard" == "moveCardToBoard") = false := by decide
  have e4 : ("updateCard" == "convertToCardFromCheckItem") = false := by decide
  have e5 : ("updateCard" == "deleteCard") = false := by decide
  have e6 : ("updateCard" == "moveCardFromBoard") = false := by decide
  have p1 : parse_action "updateCard:closed" = "updateCard" := by decide
  have p2 : parse_action "updateCard:idList" = "updateCard" := by decide
  cases hmc : finished_lists.contains a.list with
  | true =>
      have hm : a.list ∈ finished_lists := List.elem_iff.mp hmc
      simp [classify, first, build_action_event_rules, MATCH_ACTION_TYPE,
        MATCH_ACTION_TYPE_IN_LIST, MATCH_ACTION_TYPE_NOT_LIST, List.filterMap_cons,
        ha, hm, hmc, e1, e2, e3, e4, e5, e6, p1, p2]
  | false =>
      have hm : ¬(a.list ∈ finished_lists) := fun hmem => by
        have h2 : finished_lists.contains a.list = true := List.elem_iff.mpr hmem
        rw [hmc] at h2
        exact Bool.false_ne_true h2
      simp [classify, first, build_action_event_rules, MATCH_ACTION_TYPE,
        MATCH_ACTION_TYPE_IN_LIST, MATCH_ACTION_TYPE_NOT_LIST, List.filterMap_cons,
        ha, hm, hmc, e1, e2, e3, e4, e5, e6, p1, p2]

/-! Claim C1. -/

/-- C1 is refuted by the code: the pass filter is stateful. The rule
partials of action_event_iter are a generator shared by every call of
pass_filter, so the single MATCH_NOT_LIST rule is consumed by the
first record and every later record passes unfiltered. With excluded
set X and two records both on list X, the second record — whose
list_name is in the excluded set — is passed on to classification. -/
theorem pass_filter_generator_exhaustion :
    filter_with_shared_rules (build_pass_rules ["X"]) [aX1, aX2] = [aX2]
    ∧ aX2.list = "X" := by decide

/-! Claim C2. -/

/-- C2 counterexample: a record that passes the Pass Filter but whose
action kind satisfies no rule of the standard rule set is not mapped
to the ignore Category: the classify step raises StopIteration
(embedded as none), so the classifier is not total as claimed. -/
theorem classify_unmatched_raises :
    (pass_filter_call aComment (build_pass_rules ["X"])).1 = true
    ∧ classify (build_action_event_rules ["Done"]) aComment = none := by decide

/-- C2 amended: for every record whose action kind is one of the
seven kinds occurring in the standard rule set (the only kinds the
main script queries), the classifier returns exactly one Category;
for a record matched by no rule it raises StopIteration (none)
instead of defaulting to ignore. -/
theorem classify_total_on_queried_kinds (finished_lists : List String) (a : Action) :
    (a.action ∈ ["copyCard", "createCard", "moveCardToBoard", "convertToCardFromCheckItem",
        "deleteCard", "moveCardFromBoard", "updateCard"] →
      (classify (build_action_event_rules finished_lists) a).isSome = true)
    ∧ ((∀ rule ∈ build_action_event_rules finished_lists, rule.1 a = false) →
      classify (build_action_event_rules finished_lists) a = none) := by
  constructor
  · intro h
    simp only [List.mem_cons, List.mem_singleton, List.not_mem_nil, or_false] at h
    rcases h with h | h | h | h | h | h | h
    · exact classify_isSome_of_match _ _
        ⟨(MATCH_ACTION_TYPE "copyCard", Event.create),
          by simp [build_action_event_rules], by simp [MATCH_ACTION_TYPE, h]⟩
    · exact classify_isSome_of_match _ _
        ⟨(MATCH_ACTION_TYPE "createCard", Event.create),
          by simp [build_action_event_rules], by simp [MATCH_ACTION_TYPE, h]⟩
    · exact classify_isSome_of_match _ _
        ⟨(MATCH_ACTION_TYPE "moveCardToBoard", Event.create),
          by simp [build_action_event_rules], by simp [MATCH_ACTION_TYPE, h]⟩
    · exact classify_isSome_of_match _ _
        ⟨(MATCH_ACTION_TYPE "convertToCardFromCheckItem", Event.create),
          by simp [build_action_event_rules], by simp [MATCH_ACTION_TYPE, h]⟩
    · exact classify_isSome_of_match _ _
        ⟨(MATCH_ACTION_TYPE "deleteCard", Event.remove),
          by simp [build_action_event_rules], by simp [MATCH_ACTION_TYPE, h]⟩
    · exact classify_isSome_of_match _ _
        ⟨(MATCH_ACTION_TYPE "moveCardFromBoard", Event.remove),
          by simp [build_action_event_rules], by simp [MATCH_ACTION_TYPE, h]⟩
    · rw [classify_updateCard_aux finished_lists a h]
      rfl
  · exact classify_eq_none_of_no_match _ _

/-- C2 amended, witness: a createCard record is classified, and the
unmatched commentCard record yields the raised-StopIteration none. -/
theorem classify_total_on_queried_kinds_witness :
    (classify (build_action_event_rules ["Done"]) aC).isSome = true
    ∧ classify (build_action_event_rules ["Done"]) aComment = none :=
  ⟨(classify_total_on_queried_kinds ["Done"] aC).1 (by decide),
    (classify_total_on_queried_kinds ["Done"] aComment).2 (by decide)⟩

/-! Helper lemmas for the temporal aggregator. -/

/-- Reading a counter after a write: the written key returns the new
value, every other key is untouched. -/
lemma cGet_cSet (c : EventCounter) (e f : Event) (v : Nat) :
    cGet (cSet c e v) f = if e = f then v else cGet c f := by
  induction c with
  | nil => by_cases h : e = f <;> simp [cSet, cGet, h]
  | cons p rest ih =>
      cases p with
      | mk k w =>
          by_cases hk : k = e
          · subst hk
            by_cases hf : k = f <;> simp [cSet, cGet, hf]
          · by_cases hf : k = f
            · subst hf
              have hef : ¬(e = k) := fun hh => hk hh.symm
              simp [cSet, cGet, hk, hef]
            · simp [cSet, cGet, hk, hf, ih]

/-- The keys after a write are the written key and the old keys. -/
lemma mem_keys_cSet (c : EventCounter) (e f : Event) (v : Nat) :
    f ∈ (cSet c e v).map Prod.fst ↔ (f = e ∨ f ∈ c.map Prod.fst) := by
  induction c with
  | nil => simp [cSet]
  | cons p rest ih =>
      cases p with
      | mk k w =>
          by_cases hk : k = e
          · subst hk
            simp [cSet]
          · simp only [cSet, if_neg hk, List.map_cons, List.mem_cons, ih]
            tauto

/-- One date step of running_count_iter adds the day count of every
category to the running counter. -/
lemma cGet_runningStep (dc : Event → Nat) (r : EventCounter) (e : Event) :
    cGet (runningStep dc r) e = cGet r e + dc e := by
  cases e <;> simp [runningStep, Event.all, List.foldl, cGet_cSet]

/-- After one date step every category of the enumeration is a key of
the running counter. -/
lemma mem_keys_runningStep (dc : Event → Nat) (r : EventCounter) (e : Event) :
    e ∈ (runningStep dc r).map Prod.fst := by
  cases e <;> simp only [runningStep, Event.all, List.foldl, mem_keys_cSet] <;> simp

/-- The emitted dates of the running-count generator are exactly the
dates it iterates over, in order. -/
lemma running_count_go_keys {α : Type} [DecidableEq α] (bd : List (α × (Event → Nat))) :
    ∀ (ds : List α) (running : EventCounter),
      (running_count_go bd running ds).map Prod.fst = ds := by
  intro ds
  induction ds with
  | nil => intro running; rfl
  | cons d ds ih =>
      intro running
      simp [running_count_go, ih]

/-- Every row of the running-count generator carries every category
of the enumeration as a key. -/
lemma running_count_go_mem_keys {α : Type} [DecidableEq α] (bd : List (α × (Event → Nat))) :
    ∀ (ds : List α) (running : EventCounter),
      ∀ row ∈ running_count_go bd running ds, ∀ e : Event, e ∈ row.2.map Prod.fst := by
  intro ds
  induction ds with
  | nil =>
      intro running row hrow
      exact absurd hrow (List.not_mem_nil row)
  | cons d ds ih =>
      intro running row hrow e
      rcases List.mem_cons.mp hrow with heq | htail
      · subst heq
        exact mem_keys_runningStep _ _ e
      · exact ih _ row htail e

/-- Row values of the running-count generator over a strictly
ascending date list: each row holds the start value plus the sum of
the day counts of all iterated dates up to and including its own. -/
lemma running_count_go_value {α : Type} [LinearOrder α] (bd : List (α × (Event → Nat))) :
    ∀ (ds : List α) (running : EventCounter), List.Sorted (· < ·) ds →
      ∀ row ∈ running_count_go bd running ds, ∀ e : Event,
        cGet row.2 e = cGet running e
          + ((ds.filter (fun x => x ≤ row.1)).map (fun d => bdGet bd d e)).sum := by
  intro ds
  induction ds with
  | nil =>
      intro running _ row hrow
      exact absurd hrow (List.not_mem_nil row)
  | cons d ds ih =>
      intro running hsort row hrow e
      have hd : ∀ x ∈ ds, d < x := (List.sorted_cons.mp hsort).1
      have hs : List.Sorted (· < ·) ds := (List.sorted_cons.mp hsort).2
      rcases List.mem_cons.mp hrow with heq | htail
      · subst heq
        have hfilter : (d :: ds).filter (fun x => decide (x ≤ d)) = [d] := by
          rw [List.filter_cons_of_pos (by simp)]
          rw [List.filter_eq_nil_iff.mpr (fun x hx => by simpa using not_le.mpr (hd x hx))]
        dsimp only
        rw [cGet_runningStep, hfilter, List.map_cons, List.map_nil, List.sum_cons,
          List.sum_nil]
        omega
      · have h1 := ih (runningStep (bdGet bd d) running) hs row htail e
        have hrowmem : row.1 ∈ ds := by
          rw [← running_count_go_keys bd ds (runningStep (bdGet bd d) running)]
          exact List.mem_map_of_mem Prod.fst htail
        have hdle : d ≤ row.1 := le_of_lt (hd _ hrowmem)
        have hfilter : (d :: ds).filter (fun x => decide (x ≤ row.1))
            = d :: ds.filter (fun x => decide (x ≤ row.1)) :=
          List.filter_cons_of_pos (by simpa using hdle)
        rw [h1, cGet_runningStep, hfilter, List.map_cons, List.sum_cons]
        omega

/-- Looking up every filtered key of an association list with
distinct keys reads off the filtered values. -/
lemma map_bdGet_filter {α : Type} [DecidableEq α] (bd : List (α × (Event → Nat)))
    (q : α → Bool) (e : Event) (hnd : (bd.map Prod.fst).Nodup) :
    ((bd.map Prod.fst).filter q).map (fun d => bdGet bd d e)
      = (bd.filter (fun p => q p.1)).map (fun p => p.2 e) := by
  induction bd with
  | nil => rfl
  | cons p t ih =>
      simp only [List.map_cons, List.nodup_cons] at hnd
      have htail : ∀ d ∈ (t.map Prod.fst).filter q, bdGet (p :: t) d e = bdGet t d e := by
        intro d hd
        have hdm : d ∈ t.map Prod.fst := List.mem_of_mem_filter hd
        have hne : ¬(p.1 = d) := fun hh => hnd.1 (hh ▸ hdm)
        simp [bdGet, hne]
      by_cases hq : q p.1 = true
      · simp only [List.map_cons, List.filter_cons, hq, if_true]
        have hhead : bdGet (p :: t) p.1 e = p.2 e := by simp [bdGet]
        rw [hhead, List.map_congr_left htail, ih hnd.2]
      · have hq2 : q p.1 = false := by
          cases hv : q p.1
          · rfl
          · exact absurd hv hq
        simp only [List.map_cons, List.filter_cons, hq2, Bool.false_eq_true, if_false]
        rw [List.map_congr_left htail, ih hnd.2]

/-- Summing a mapped filter is monotone in the filter predicate. -/
lemma sum_filter_mono {α : Type} (l : List α) (f : α → Nat) (p q : α → Bool)
    (himp : ∀ x, p x = true → q x = true) :
    ((l.filter p).map f).sum ≤ ((l.filter q).map f).sum := by
  induction l with
  | nil => exact le_refl 0
  | cons a t ih =>
      cases hp : p a with
      | true =>
          have hq := himp a hp
          simp only [List.filter_cons, hp, hq, if_true, List.map_cons, List.sum_cons]
          exact Nat.add_le_add_left ih _
      | false =>
          cases hq : q a with
          | true =>
              simp only [List.filter_cons, hp, hq, if_true, Bool.false_eq_true, if_false,
                List.map_cons, List.sum_cons]
              exact le_trans ih (Nat.le_add_left _ _)
          | false =>
              simp only [List.filter_cons, hp, hq, Bool.false_eq_true, if_false]
              exact ih

/-! Claim C3. -/

/-- C3: running_count_iter emits one row per distinct date of the
stage-1 mapping, in strictly ascending date order; every row's
counter carries every Category of the enumeration as a key; the value
of each Category in the row for date d is the sum of that Category's
per-date counts over all dates up to and including d (each emitted
row holds this value on its own — the source copies the accumulator
at each yield — so no row changes with later emissions); and the rows
are pairwise monotonically non-decreasing in every Category. -/
theorem running_count_iter_prefix_sums {α : Type} [LinearOrder α]
    (by_date : List (α × (Event → Nat))) (hnd : (by_date.map Prod.fst).Nodup) :
    ((running_count_iter by_date).map Prod.fst).Perm (by_date.map Prod.fst)
    ∧ List.Sorted (· < ·) ((running_count_iter by_date).map Prod.fst)
    ∧ (∀ row ∈ running_count_iter by_date, ∀ e : Event, e ∈ row.2.map Prod.fst)
    ∧ (∀ row ∈ running_count_iter by_date, ∀ e : Event,
        cGet row.2 e = ((by_date.filter (fun p => p.1 ≤ row.1)).map (fun p => p.2 e)).sum)
    ∧ List.Pairwise (fun r1 r2 => ∀ e : Event, cGet r1.2 e ≤ cGet r2.2 e)
        (running_count_iter by_date) := by
  have hperm : (List.insertionSort (· ≤ ·) (by_date.map Prod.fst)).Perm
      (by_date.map Prod.fst) := List.perm_insertionSort _ _
  have hsortle : List.Sorted (· ≤ ·) (List.insertionSort (· ≤ ·) (by_date.map Prod.fst)) :=
    List.sorted_insertionSort _ _
  have hndds : (List.insertionSort (· ≤ ·) (by_date.map Prod.fst)).Nodup :=
    hperm.nodup_iff.mpr hnd
  have hsortlt : List.Sorted (· < ·) (List.insertionSort (· ≤ ·) (by_date.map Prod.fst)) :=
    hsortle.lt_of_le hndds
  have hkeys : (running_count_iter by_date).map Prod.fst
      = List.insertionSort (· ≤ ·) (by_date.map Prod.fst) :=
    running_count_go_keys by_date _ []
  have hvalue : ∀ row ∈ running_count_iter by_date, ∀ e : Event,
      cGet row.2 e = ((by_date.filter (fun p => p.1 ≤ row.1)).map (fun p => p.2 e)).sum := by
    intro row hrow e
    have h1 := running_count_go_value by_date _ [] hsortlt row hrow e
    have h2 : (((List.insertionSort (· ≤ ·) (by_date.map Prod.fst)).filter
          (fun x => decide (x ≤ row.1))).map (fun d => bdGet by_date d e)).sum
        = (((by_date.map Prod.fst).filter (fun x => decide (x ≤ row.1))).map
            (fun d => bdGet by_date d e)).sum :=
      ((hperm.filter _).map _).sum_eq
    rw [h1, h2, map_bdGet_filter by_date _ e hnd]
    simp [cGet]
  refine ⟨hkeys ▸ hperm, hkeys ▸ hsortlt, running_count_go_mem_keys by_date _ [], hvalue, ?_⟩
  have hpairdate : List.Pairwise (fun r1 r2 : α × EventCounter => r1.1 < r2.1)
      (running_count_iter by_date) := by
    have := hkeys ▸ hsortlt
    exact List.pairwise_map.mp this
  refine hpairdate.imp_of_mem ?_
  intro r1 r2 h1 h2 hlt e
  rw [hvalue r1 h1 e, hvalue r2 h2 e]
  exact sum_filter_mono by_date _ _ _
    (fun p hp => by
      have hple : p.1 ≤ r1.1 := by simpa using hp
      simpa using le_trans hple (le_of_lt hlt))

/-- A concrete two-date stage-1 mapping, with its dates out of
order. -/
def by_date_example : List (Nat × (Event → Nat)) := [(2, fun _ => 1), (1, fun _ => 3)]

/-- C3 witness, at the concrete two-date mapping. -/
theorem running_count_iter_prefix_sums_witness :
    (by_date_example.map Prod.fst).Nodup
    ∧ (((running_count_iter by_date_example).map Prod.fst).Perm (by_date_example.map Prod.fst)
      ∧ List.Sorted (· < ·) ((running_count_iter by_date_example).map Prod.fst)
      ∧ (∀ row ∈ running_count_iter by_date_example, ∀ e : Event, e ∈ row.2.map Prod.fst)
      ∧ (∀ row ∈ running_count_iter by_date_example, ∀ e : Event,
          cGet row.2 e
            = ((by_date_example.filter (fun p => p.1 ≤ row.1)).map (fun p => p.2 e)).sum)
      ∧ List.Pairwise (fun r1 r2 => ∀ e : Event, cGet r1.2 e ≤ cGet r2.2 e)
          (running_count_iter by_date_example)) :=
  ⟨by decide, running_count_iter_prefix_sums by_date_example (by decide)⟩

/-! Helper lemmas for the timestamp parser. -/

/-- Split a conjunction of two Bool tests. -/
lemma band_split {a b : Bool} (h : (a && b) = true) : a = true ∧ b = true := by
  cases a <;> cases b <;> simp_all

/-- Build a conjunction of two Bool tests. -/
lemma band_mk {a b : Bool} (h1 : a = true) (h2 : b = true) : (a && b) = true := by
  subst h1
  subst h2
  rfl

/-- Every month length is at most 31 days. -/
lemma daysInMonth_le_31 (y m : Nat) : daysInMonth y m ≤ 31 := by
  unfold daysInMonth
  split
  · split <;> omega
  · split <;> omega

/-- Four digits parse as the year. -/
lemma parseYear_digits (c1 c2 c3 c4 : Char) (rest : List Char)
    (h1 : c1.isDigit = true) (h2 : c2.isDigit = true) (h3 : c3.isDigit = true)
    (h4 : c4.isDigit = true) :
    parseYear (c1 :: c2 :: c3 :: c4 :: rest)
      = some (10 * d2v c1 c2 * 10 + d2v c3 c4, rest) := by
  simp [parseYear, h1, h2, h3, h4]

/-- A format literal matches itself. -/
lemma parseLitCI_self (lit : Char) (cs : List Char) : parseLitCI lit (lit :: cs) = some cs := by
  simp [parseLitCI]

/-- Two digits whose value passes the two-digit test parse as a
two-digit field. -/
lemma parse2or1_two (two one : Nat → Bool) (c1 c2 : Char) (rest : List Char)
    (h1 : c1.isDigit = true) (h2 : c2.isDigit = true) (ht : two (d2v c1 c2) = true) :
    parse2or1 two one (c1 :: c2 :: rest) = some (d2v c1 c2, rest) := by
  simp [parse2or1, h1, h2, ht]

/-- Exactly six digits are taken whole by the greedy digit run. -/
lemma takeDigitsUpTo_six (c1 c2 c3 c4 c5 c6 : Char) (rest : List Char)
    (h1 : c1.isDigit = true) (h2 : c2.isDigit = true) (h3 : c3.isDigit = true)
    (h4 : c4.isDigit = true) (h5 : c5.isDigit = true) (h6 : c6.isDigit = true) :
    takeDigitsUpTo 6 (c1 :: c2 :: c3 :: c4 :: c5 :: c6 :: rest)
      = ([c1, c2, c3, c4, c5, c6], rest) := by
  simp [takeDigitsUpTo, h1, h2, h3, h4, h5, h6]

/-- Six digits parse as the fraction. -/
lemma parseFrac_six (c1 c2 c3 c4 c5 c6 : Char) (rest : List Char)
    (h1 : c1.isDigit = true) (h2 : c2.isDigit = true) (h3 : c3.isDigit = true)
    (h4 : c4.isDigit = true) (h5 : c5.isDigit = true) (h6 : c6.isDigit = true) :
    parseFrac (c1 :: c2 :: c3 :: c4 :: c5 :: c6 :: rest)
      = some (digitsVal [c1, c2, c3, c4, c5, c6], rest) := by
  unfold parseFrac
  rw [takeDigitsUpTo_six c1 c2 c3 c4 c5 c6 rest h1 h2 h3 h4 h5 h6]
  simp

set_option maxHeartbeats 1000000 in
/-- A date string in the fixed spec format is accepted by the
strptime embedding, with the same fields. -/
lemma spec_imp_code (cs : List Char) (t : CalDate × Nat × Nat × Nat × Nat)
    (h : specTimestampParse cs = some t) : parse_utc_timestamp cs = some t := by
  unfold specTimestampParse at h
  split at h
  · rename_i y1 y2 y3 y4 m1 m2 dd1 dd2 hh1 hh2 n1 n2 s1 s2 f1 f2 f3 f4 f5 f6
    split at h
    · rename_i hguard
      injection h with heq
      subst heq
      obtain ⟨r1, hok⟩ := band_split hguard
      obtain ⟨r2, h20⟩ := band_split r1
      obtain ⟨r3, h19⟩ := band_split r2
      obtain ⟨r4, h18⟩ := band_split r3
      obtain ⟨r5, h17⟩ := band_split r4
      obtain ⟨r6, h16⟩ := band_split r5
      obtain ⟨r7, h15⟩ := band_split r6
      obtain ⟨r8, h14⟩ := band_split r7
      obtain ⟨r9, h13⟩ := band_split r8
      obtain ⟨r10, h12⟩ := band_split r9
      obtain ⟨r11, h11⟩ := band_split r10
      obtain ⟨r12, h10⟩ := band_split r11
      obtain ⟨r13, h9⟩ := band_split r12
      obtain ⟨r14, h8⟩ := band_split r13
      obtain ⟨r15, h7⟩ := band_split r14
      obtain ⟨r16, h6⟩ := band_split r15
      obtain ⟨r17, h5⟩ := band_split r16
      obtain ⟨r18, h4⟩ := band_split r17
      obtain ⟨r19, h3⟩ := band_split r18
      obtain ⟨h1, h2⟩ := band_split r19
      have hoknum := hok
      unfold datetime_ok at hoknum
      obtain ⟨q1, hss⟩ := band_split hoknum
      obtain ⟨q2, hmi⟩ := band_split q1
      obtain ⟨q3, hhh⟩ := band_split q2
      obtain ⟨q4, hdyM⟩ := band_split q3
      obtain ⟨q5, hdy1⟩ := band_split q4
      obtain ⟨q6, hmo12⟩ := band_split q5
      obtain ⟨q7, hmo1⟩ := band_split q6
      have hmoT : monthTwo (d2v m1 m2) = true := by
        unfold monthTwo
        exact band_mk hmo1 hmo12
      have hdyT : dayTwo (d2v dd1 dd2) = true := by
        unfold dayTwo
        refine band_mk hdy1 (decide_eq_true ?_)
        exact le_trans (of_decide_eq_true hdyM) (daysInMonth_le_31 _ _)
      have hhhT : hourTwo (d2v hh1 hh2) = true := hhh
      have hmiT : minuteTwo (d2v n1 n2) = true := hmi
      have hssT : secondTwo (d2v s1 s2) = true := by
        unfold secondTwo
        refine decide_eq_true ?_
        have := of_decide_eq_true hss
        omega
      unfold parse_utc_timestamp
      rw [parseYear_digits y1 y2 y3 y4 _ h1 h2 h3 h4]
      dsimp only
      rw [parseLitCI_self]
      dsimp only
      rw [parse2or1_two monthTwo monthOne m1 m2 _ h5 h6 hmoT]
      dsimp only
      rw [parseLitCI_self]
      dsimp only
      rw [parse2or1_two dayTwo monthOne dd1 dd2 _ h7 h8 hdyT]
      dsimp only
      rw [parseLitCI_self]
      dsimp only
      rw [parse2or1_two hourTwo anyDigit hh1 hh2 _ h9 h10 hhhT]
      dsimp only
      rw [parseLitCI_self]
      dsimp only
      rw [parse2or1_two minuteTwo anyDigit n1 n2 _ h11 h12 hmiT]
      dsimp only
      rw [parseLitCI_self]
      dsimp only
      rw [parse2or1_two secondTwo anyDigit s1 s2 _ h13 h14 hssT]
      dsimp only
      rw [parseLitCI_self]
      dsimp only
      rw [parseFrac_six f1 f2 f3 f4 f5 f6 _ h15 h16 h17 h18 h19 h20]
      dsimp only
      rw [parseLitCI_self]
      dsimp only
      rw [hok]
      simp
    · exact Option.noConfusion h
  · exact Option.noConfusion h

/-! Claim C6. -/

/-- A raw document whose date string has a one-digit month field. -/
def doc6 : TrelloDoc :=
  ⟨"2024-1-02T03:04:05.678901Z", "createCard", ⟨⟨"id1", some "Card"⟩, some ⟨"Doing"⟩, none⟩⟩

/-- C6 counterexample: the date string 2024-1-02T03:04:05.678901Z
does not match the fixed format YYYY-MM-DDTHH:MM:SS.ffffffZ (one
digit month), yet normalization succeeds and produces an Event Record
dated 2024-01-02 — strptime also accepts un-padded fields, so a
payload whose date string does not match the fixed format does not
always fail. -/
theorem make_action_date_counterexample :
    specTimestampParse ("2024-1-02T03:04:05.678901Z").data = none
    ∧ make_action_date doc6 = some ⟨2024, 1, 2⟩
    ∧ (make_action doc6).isSome = true := by decide

/-- C6 amended: a date string in the fixed format
YYYY-MM-DDTHH:MM:SS.ffffffZ normalizes to the calendar-date part of
the timestamp, the time of day and the fraction not affecting the
result; and normalization fails (producing no Event Record) exactly
when the underlying strptime parser rejects the string — that parser
also accepts some strings outside the fixed format. -/
theorem make_action_date_fixed_format (document : TrelloDoc) :
    (∀ (y mo dy hh mi ss f : Nat),
        specTimestampParse document.date.data = some (⟨y, mo, dy⟩, hh, mi, ss, f) →
        make_action_date document = some ⟨y, mo, dy⟩)
    ∧ (parse_utc_timestamp document.date.data = none → make_action document = none) := by
  constructor
  · intro y mo dy hh mi ss f h
    unfold make_action_date
    rw [spec_imp_code _ _ h]
    rfl
  · intro h
    unfold make_action make_action_date
    rw [h]
    rfl

/-- C6 amended, witness: a well-formed timestamp with microsecond
precision normalizes to its calendar date. -/
theorem make_action_date_fixed_format_witness :
    specTimestampParse (("2024-01-02T03:04:05.123456Z" : String)).data
        = some (⟨2024, 1, 2⟩, 3, 4, 5, 123456)
    ∧ make_action_date ⟨"2024-01-02T03:04:05.123456Z", "createCard",
        ⟨⟨"id1", some "Card"⟩, some ⟨"Doing"⟩, none⟩⟩ = some ⟨2024, 1, 2⟩ :=
  ⟨by decide,
    (make_action_date_fixed_format ⟨"2024-01-02T03:04:05.123456Z", "createCard",
      ⟨⟨"id1", some "Card"⟩, some ⟨"Doing"⟩, none⟩⟩).1 2024 1 2 3 4 5 123456 (by decide)⟩

/-! Claim C4. -/

/-- C4: first-match-wins. For every rule list and record, if the rule
at position i is satisfied and no earlier rule is, the classify step
returns the triple built from that rule target Category — in
particular when several rules are simultaneously satisfied the
earliest one decides. -/
theorem classify_first_match_wins (rules : List ((Action → Bool) × Event)) (a : Action)
    (i : Nat) (hi : i < rules.length)
    (hbefore : ∀ j : Fin rules.length, j.1 < i → (rules.get j).1 a = false)
    (hmatch : (rules.get ⟨i, hi⟩).1 a = true) :
    classify rules a = some (a.date, (rules.get ⟨i, hi⟩).2, a) := by
  induction rules generalizing i with
  | nil => exact absurd hi (by simp)
  | cons r rest ih =>
      cases i with
      | zero =>
          have hr : r.1 a = true := hmatch
          simp [classify, first, List.filterMap_cons, hr]
      | succ n =>
          have hr : r.1 a = false := hbefore ⟨0, by simp⟩ (Nat.succ_pos n)
          have step : classify (r :: rest) a = classify rest a := by
            simp [classify, first, List.filterMap_cons, hr]
          rw [step]
          exact ih n (Nat.lt_of_succ_lt_succ hi)
            (fun j hj => hbefore ⟨j.1 + 1, Nat.succ_lt_succ j.2⟩ (Nat.succ_lt_succ hj))
            hmatch

/-- C4 witness: under the standard rule set with finished list Done,
the updateCard record on Done satisfies both updateCard rules
(positions 6 and 7); the first of them decides and the result is
finish. -/
theorem classify_first_match_wins_witness :
    classify (build_action_event_rules ["Done"]) aU
      = some (aU.date, ((build_action_event_rules ["Done"]).get ⟨6, by decide⟩).2, aU) :=
  classify_first_match_wins (build_action_event_rules ["Done"]) aU 6 (by decide)
    (by decide) (by decide)

/-! Claim C5. -/

/-- C5: the action-kind-and-list-membership predicate compares only
the unqualified kind: parsing strips an attached qualifier and leaves
a bare kind unchanged, so the built predicate holds exactly when the
action field equals the unqualified kind and the list is a member;
and under the standard rule set every updateCard record on a finished
list is classified finish. -/
theorem match_action_type_in_list_unqualified (base qual : String) (hbase : ':' ∉ base.data)
    (L : List String) (a : Action) :
    parse_action base = base
    ∧ parse_action (base ++ ":" ++ qual) = base
    ∧ MATCH_ACTION_TYPE_IN_LIST (base ++ ":" ++ qual) L a
        = (a.action == base && L.contains a.list)
    ∧ (a.action = "updateCard" → L.contains a.list = true →
        classify (build_action_event_rules L) a = some (a.date, Event.finish, a)) := by
  have h1 : parse_action base = base := by
    apply String.ext
    show (base.data.takeWhile (fun c => !(c == ':'))) = base.data
    exact takeWhile_ne_colon base.data hbase
  have hdata : (base ++ ":" ++ qual).data = base.data ++ ':' :: qual.data := by
    rw [string_data_append, string_data_append, List.append_assoc]
    rfl
  have h2 : parse_action (base ++ ":" ++ qual) = base := by
    apply String.ext
    show ((base ++ ":" ++ qual).data.takeWhile (fun c => !(c == ':'))) = base.data
    rw [hdata]
    exact takeWhile_append_colon base.data qual.data hbase
  refine ⟨h1, h2, ?_, ?_⟩
  · simp [MATCH_ACTION_TYPE_IN_LIST, h2]
  · intro ha hm
    rw [classify_updateCard_aux L a ha, hm]
    simp

/-- C5 witness, at the configured literal updateCard:closed with
finished list Done and the updateCard record on Done. -/
theorem match_action_type_in_list_unqualified_witness :
    parse_action "updateCard" = "updateCard"
    ∧ parse_action ("updateCard" ++ ":" ++ "closed") = "updateCard"
    ∧ MATCH_ACTION_TYPE_IN_LIST ("updateCard" ++ ":" ++ "closed") ["Done"] aU
        = (aU.action == "updateCard" && List.contains ["Done"] aU.list)
    ∧ classify (build_action_event_rules ["Done"]) aU = some (aU.date, Event.finish, aU) :=
  ⟨(match_action_type_in_list_unqualified "updateCard" "closed" (by decide) ["Done"] aU).1,
    (match_action_type_in_list_unqualified "updateCard" "closed" (by decide) ["Done"] aU).2.1,
    (match_action_type_in_list_unqualified "updateCard" "closed" (by decide) ["Done"] aU).2.2.1,
    (match_action_type_in_list_unqualified "updateCard" "closed" (by decide) ["Done"] aU).2.2.2
      rfl (by decide)⟩

/-! Claim C7. -/

/-- C7: the pivot is a pure reshaping: it emits exactly one flat row
per input row in input order, each flat row being the date of the
input row followed by the counts of the reported categories in the
configured order; an absent category reads as 0; and the reported
categories of the program are the enumeration minus ignore, in
enumeration order. -/
theorem pivot_for_csv_shape {α : Type} (ge : List Event) (rows : List (α × EventCounter)) :
    (pivot_for_csv ge rows).length = rows.length
    ∧ (∀ i : Nat, (pivot_for_csv ge rows)[i]? =
        (rows[i]?).map (fun row => (row.1, ge.map (fun event_type => cGet row.2 event_type))))
    ∧ (∀ (counter : EventCounter) (e : Event), e ∉ counter.map Prod.fst → cGet counter e = 0)
    ∧ good_events = [Event.create, Event.remove, Event.finish] := by
  refine ⟨by simp [pivot_for_csv], ?_, ?_, by decide⟩
  · intro i
    simp [pivot_for_csv, List.getElem?_map]
  · intro counter e
    induction counter with
    | nil => intro _; rfl
    | cons p rest ih =>
        intro h
        simp only [List.map_cons, List.mem_cons, not_or] at h
        have hk : ¬(p.1 = e) := fun hh => h.1 hh.symm
        cases p with
        | mk k v =>
            simp only [cGet]
            simp only [] at hk
            rw [if_neg hk]
            exact ih h.2

/-- C7 witness, at a concrete one-row totals sequence with a counter
that lacks the remove and finish keys. -/
theorem pivot_for_csv_shape_witness :
    (pivot_for_csv good_events [((1 : Nat), [(Event.create, 2)])]).length
        = [((1 : Nat), [(Event.create, 2)])].length
    ∧ (∀ i : Nat, (pivot_for_csv good_events [((1 : Nat), [(Event.create, 2)])])[i]? =
        (([((1 : Nat), [(Event.create, 2)])])[i]?).map
          (fun row => (row.1, good_events.map (fun event_type => cGet row.2 event_type))))
    ∧ cGet [(Event.create, 2)] Event.remove = 0
    ∧ good_events = [Event.create, Event.remove, Event.finish] :=
  ⟨(pivot_for_csv_shape good_events [((1 : Nat), [(Event.create, 2)])]).1,
    (pivot_for_csv_shape good_events [((1 : Nat), [(Event.create, 2)])]).2.1,
    (pivot_for_csv_shape good_events [((1 : Nat), [(Event.create, 2)])]).2.2.1
      [(Event.create, 2)] Event.remove (by decide),
    (pivot_for_csv_shape good_events [((1 : Nat), [(Event.create, 2)])]).2.2.2⟩

/-! Claim C8. -/

/-- C8: normalizer field resolution. The card field is the nested
card name when present and the card id otherwise; the list_name field
is the direct list reference name when present, else the listAfter
reference name when present, else the empty string — with no failure
path in any case. -/
theorem make_action_card_list_resolution (document : TrelloDoc) :
    (∀ name, document.data.card.name = some name → make_action_card document = name)
    ∧ (document.data.card.name = none → make_action_card document = document.data.card.id)
    ∧ (∀ l, document.data.list = some l → make_action_list document = l.name)
    ∧ (∀ l, document.data.list = none → document.data.listAfter = some l →
        make_action_list document = l.name)
    ∧ (document.data.list = none → document.data.listAfter = none →
        make_action_list document = "") := by
  refine ⟨?_, ?_, ?_, ?_, ?_⟩ <;> intros <;> simp_all [make_action_card, make_action_list]

/-- C8 witness: concrete documents exercising each resolution
branch. -/
theorem make_action_card_list_resolution_witness :
    make_action_card ⟨"", "createCard", ⟨⟨"id1", some "Card A"⟩, some ⟨"Doing"⟩, none⟩⟩ = "Card A"
    ∧ make_action_card ⟨"", "deleteCard", ⟨⟨"id9", none⟩, none, none⟩⟩ = "id9"
    ∧ make_action_list ⟨"", "createCard", ⟨⟨"id1", some "Card A"⟩, some ⟨"Doing"⟩, none⟩⟩ = "Doing"
    ∧ make_action_list ⟨"", "updateCard", ⟨⟨"id2", none⟩, none, some ⟨"Done"⟩⟩⟩ = "Done"
    ∧ make_action_list ⟨"", "deleteCard", ⟨⟨"id9", none⟩, none, none⟩⟩ = "" :=
  ⟨(make_action_card_list_resolution ⟨"", "createCard",
      ⟨⟨"id1", some "Card A"⟩, some ⟨"Doing"⟩, none⟩⟩).1 "Card A" rfl,
    (make_action_card_list_resolution ⟨"", "deleteCard",
      ⟨⟨"id9", none⟩, none, none⟩⟩).2.1 rfl,
    (make_action_card_list_resolution ⟨"", "createCard",
      ⟨⟨"id1", some "Card A"⟩, some ⟨"Doing"⟩, none⟩⟩).2.2.1 ⟨"Doing"⟩ rfl,
    (make_action_card_list_resolution ⟨"", "updateCard",
      ⟨⟨"id2", none⟩, none, some ⟨"Done"⟩⟩⟩).2.2.2.1 ⟨"Done"⟩ rfl rfl,
    (make_action_card_list_resolution ⟨"", "deleteCard",
      ⟨⟨"id9", none⟩, none, none⟩⟩).2.2.2.2 rfl rfl⟩

/-! Claim C9. -/

/-- C9: updateCard records never fall through the standard rule set:
the result is finish when the list is a finished list and ignore
otherwise (the trailing idList rule compares only the unqualified
kind, so it catches every remaining updateCard record). -/
theorem classify_updateCard_total (finished_lists : List String) (a : Action)
    (ha : a.action = "updateCard") :
    classify (build_action_event_rules finished_lists) a
      = some (a.date,
          if finished_lists.contains a.list then Event.finish else Event.ignore, a) :=
  classify_updateCard_aux finished_lists a ha

/-- C9 witness: the updateCard record on the finished list Done. -/
theorem classify_updateCard_total_witness :
    classify (build_action_event_rules ["Done"]) aU
      = some (aU.date,
          if List.contains ["Done"] aU.list then Event.finish else Event.ignore, aU) :=
  classify_updateCard_total ["Done"] aU rfl

/-! Claim C10. -/

/-- C10: the membership and exclusion predicates are exact
complements, and the type-and-membership pair built from one literal
is never simultaneously true and is exhaustive exactly on records
whose action field equals the unqualified kind. -/
theorem match_predicates_complement (L : List String) (t : String) (a : Action) :
    (MATCH_NOT_LIST L a = !(MATCH_IN_LIST L a))
    ∧ ((MATCH_ACTION_TYPE_IN_LIST t L a && MATCH_ACTION_TYPE_NOT_LIST t L a) = false)
    ∧ (a.action = parse_action t →
        (MATCH_ACTION_TYPE_IN_LIST t L a ^^ MATCH_ACTION_TYPE_NOT_LIST t L a) = true) := by
  refine ⟨rfl, ?_, ?_⟩
  · cases hb : (a.action == parse_action t) <;> cases hc : L.contains a.list <;>
      simp [MATCH_ACTION_TYPE_IN_LIST, MATCH_ACTION_TYPE_NOT_LIST, hb, hc]
  · intro h
    have hb : (a.action == parse_action t) = true := by simp [h]
    cases hc : L.contains a.list <;>
      simp [MATCH_ACTION_TYPE_IN_LIST, MATCH_ACTION_TYPE_NOT_LIST, hb, hc]

/-- C10 witness: the complement facts at a concrete record and
configured literal. -/
theorem match_predicates_complement_witness :
    (MATCH_NOT_LIST ["Done"] aU = !(MATCH_IN_LIST ["Done"] aU))
    ∧ ((MATCH_ACTION_TYPE_IN_LIST "updateCard:idList" ["Done"] aU
        && MATCH_ACTION_TYPE_NOT_LIST "updateCard:idList" ["Done"] aU) = false)
    ∧ ((MATCH_ACTION_TYPE_IN_LIST "updateCard:idList" ["Done"] aU
        ^^ MATCH_ACTION_TYPE_NOT_LIST "updateCard:idList" ["Done"] aU) = true) :=
  ⟨(match_predicates_complement ["Done"] "updateCard:idList" aU).1,
    (match_predicates_complement ["Done"] "updateCard:idList" aU).2.1,
    (match_predicates_complement ["Done"] "updateCard:idList" aU).2.2 (by decide)⟩

end action_counts
